import Mathlib

set_option autoImplicit false

/-
Verification of the banana bytecode virtual machine (src/src/vm.rs).

The VM executes a linear sequence of instructions against an operand stack
and a string-keyed global table.  We give a shallow embedding of the Rust
code.  The only non-structural datatype of the source is the f64 payload of
Value::Number; IEEE-754 double arithmetic is kept abstract as a bundle of
operations (FloatOps) over an arbitrary carrier F, since every claim about
the engine is about which operation is applied to which operands, never
about the bit-level behaviour of the operations themselves.  Concrete
witnesses instantiate F with Int.

Rust panics (unwrap on an empty pop, unwrap on a missing global, the expect
on checked_add_signed, slice indexing out of range, and the explicit
arithmetic type-mismatch panic arms) abort the run; the embedding models
the fallible single step as Except VmError (Vm F), following the design
note of the spec that failure is a result value at the API boundary.
-/

namespace Banana

/-- Abstract interface standing for the IEEE-754 f64 operations used by
vm.rs: `+`, `-`, `*`, `/`, `%`, the literal `0.0` with its `!=` test from
`is_truthy`, the Display form used by `Value::to_string`, and the Debug
form used by `Print`. -/
structure FloatOps (F : Type) where
  add : F → F → F
  sub : F → F → F
  mul : F → F → F
  div : F → F → F
  rem : F → F → F
  zero : F
  beq : F → F → Bool
  fmtDisplay : F → String
  fmtDebug : F → String

/-- Embedding of `enum Value` from vm.rs: Nil, Bool(bool), Number(f64),
String(String). -/
inductive Value (F : Type) where
  | nil : Value F
  | bool (b : Bool) : Value F
  | number (n : F) : Value F
  | string (s : String) : Value F
deriving DecidableEq, Repr

/-- Embedding of `Value::to_string` (the canonical Display form):
Nil is "nil", Bool prints true/false, Number its decimal text, String
itself. -/
def Value.to_string {F : Type} (M : FloatOps F) : Value F → String
  | .nil => "nil"
  | .bool b => if b then "true" else "false"
  | .number n => M.fmtDisplay n
  | .string s => s

/-- Embedding of `Value::get_type`: the diagnostic type tag. -/
def Value.get_type {F : Type} : Value F → String
  | .nil => "nil"
  | .bool _ => "bool"
  | .number _ => "number"
  | .string _ => "string"

/-- Embedding of `Value::is_truthy`: Nil is false, Bool is itself, a
Number is truthy when it differs from 0.0, a String when non-empty. -/
def Value.is_truthy {F : Type} (M : FloatOps F) : Value F → Bool
  | .nil => false
  | .bool b => b
  | .number n => !(M.beq n M.zero)
  | .string s => !s.isEmpty

/-- Embedding of the derived Debug form `{:?}` printed by Op::Print. -/
def Value.debug {F : Type} (M : FloatOps F) : Value F → String
  | .nil => "Nil"
  | .bool b => "Bool(" ++ (if b then "true" else "false") ++ ")"
  | .number n => "Number(" ++ M.fmtDebug n ++ ")"
  | .string s => "String(" ++ "\"" ++ s ++ "\")"

/-- Embedding of `enum Op` from vm.rs. -/
inductive Op where
  | LoadConstant (index : Nat) : Op
  | TestNot : Op
  | Jump (offset : Int) : Op
  | SetGlobal (index : Nat) : Op
  | GetGlobal (index : Nat) : Op
  | Add : Op
  | Sub : Op
  | Mul : Op
  | Div : Op
  | Mod : Op
  | Print : Op
deriving DecidableEq, Repr

/-- Embedding of `struct Program`: the constant pool and the instruction
sequence. -/
structure Program (F : Type) where
  constants : List (Value F)
  ops : List Op
deriving DecidableEq

/-- Embedding of the global table (`HashMap<String, Value>` in vm.rs) as an
association list with unique keys; the first matching key wins on lookup
and insert replaces, which reproduces the HashMap observable behaviour. -/
def globalsInsert {F : Type} (g : List (String × Value F)) (name : String)
    (v : Value F) : List (String × Value F) :=
  (name, v) :: g.filter (fun p => p.1 != name)

/-- Lookup in the global table (`HashMap::get`): the value of the first
pair whose key equals the name. -/
def globalsGet {F : Type} : List (String × Value F) → String → Option (Value F)
  | [], _ => none
  | p :: g, name => if p.1 == name then some p.2 else globalsGet g name

/-- Embedding of `struct Vm`.  The output field records the lines printed
by Op::Print (in Rust they go to stdout, outside the struct). -/
structure Vm (F : Type) where
  stack : List (Value F)
  program : Program F
  globals : List (String × Value F)
  ip : Nat
  output : List String
deriving DecidableEq

/-- Errors surfaced by the panics of vm.rs: pop on an empty stack, the
expect on `checked_add_signed`, a missing global on GetGlobal, the
arithmetic mismatch arms (carrying the two type tags in the order they
appear in the message), and slice indexing out of range. -/
inductive VmError where
  | StackUnderflow : VmError
  | InvalidJumpTarget : VmError
  | UnboundGlobal : VmError
  | TypeMismatch (t₁ t₂ : String) : VmError
  | IndexOutOfBounds : VmError
deriving DecidableEq, Repr

/-- Embedding of `usize::checked_add_signed` for a 64-bit target: the sum
as an integer must be representable in [0, 2^64). -/
def checked_add_signed (n : Nat) (off : Int) : Option Nat :=
  if 0 ≤ (n : Int) + off ∧ (n : Int) + off < (2 : Int) ^ 64 then
    some ((n : Int) + off).toNat
  else none

/-- Embedding of the match block of `Vm::run_next` (everything before the
trailing `self.ip += 1`).  Each arm mirrors the Rust arm, in the same
order of effects: TestNot bumps ip by one when the popped value is truthy,
Jump stores the checked sum into ip, SetGlobal pops before reading the
constant pool, GetGlobal reads the constant pool before the lookup, and
the arithmetic ops pop rhs first, then lhs. -/
def Vm.exec {F : Type} (M : FloatOps F) (vm : Vm F) : Except VmError (Vm F) :=
  match vm.program.ops[vm.ip]? with
  | none => .error .IndexOutOfBounds
  | some (Op.LoadConstant index) =>
    match vm.program.constants[index]? with
    | none => .error .IndexOutOfBounds
    | some c => .ok { vm with stack := c :: vm.stack }
  | some Op.TestNot =>
    match vm.stack with
    | [] => .error .StackUnderflow
    | value :: rest =>
      if value.is_truthy M then .ok { vm with stack := rest, ip := vm.ip + 1 }
      else .ok { vm with stack := rest }
  | some (Op.Jump offset) =>
    match checked_add_signed vm.ip offset with
    | none => .error .InvalidJumpTarget
    | some t => .ok { vm with ip := t }
  | some (Op.SetGlobal index) =>
    match vm.stack with
    | [] => .error .StackUnderflow
    | value :: rest =>
      match vm.program.constants[index]? with
      | none => .error .IndexOutOfBounds
      | some c =>
        .ok { vm with stack := rest,
                      globals := globalsInsert vm.globals (c.to_string M) value }
  | some (Op.GetGlobal index) =>
    match vm.program.constants[index]? with
    | none => .error .IndexOutOfBounds
    | some c =>
      match globalsGet vm.globals (c.to_string M) with
      | none => .error .UnboundGlobal
      | some value => .ok { vm with stack := value :: vm.stack }
  | some Op.Add =>
    match vm.stack with
    | rhs :: lhs :: rest =>
      match lhs, rhs with
      | .number a, .number b =>
        .ok { vm with stack := .number (M.add a b) :: rest }
      | .string a, r =>
        .ok { vm with stack := .string (a ++ r.to_string M) :: rest }
      | l, .string b =>
        .ok { vm with stack := .string (l.to_string M ++ b) :: rest }
      | l, r => .error (.TypeMismatch l.get_type r.get_type)
    | _ => .error .StackUnderflow
  | some Op.Sub =>
    match vm.stack with
    | rhs :: lhs :: rest =>
      match lhs, rhs with
      | .number a, .number b =>
        .ok { vm with stack := .number (M.sub a b) :: rest }
      | l, r => .error (.TypeMismatch r.get_type l.get_type)
    | _ => .error .StackUnderflow
  | some Op.Mul =>
    match vm.stack with
    | rhs :: lhs :: rest =>
      match lhs, rhs with
      | .number a, .number b =>
        .ok { vm with stack := .number (M.mul a b) :: rest }
      | l, r => .error (.TypeMismatch l.get_type r.get_type)
    | _ => .error .StackUnderflow
  | some Op.Div =>
    match vm.stack with
    | rhs :: lhs :: rest =>
      match lhs, rhs with
      | .number a, .number b =>
        .ok { vm with stack := .number (M.div a b) :: rest }
      | l, r => .error (.TypeMismatch l.get_type r.get_type)
    | _ => .error .StackUnderflow
  | some Op.Mod =>
    match vm.stack with
    | rhs :: lhs :: rest =>
      match lhs, rhs with
      | .number a, .number b =>
        .ok { vm with stack := .number (M.rem a b) :: rest }
      | l, r => .error (.TypeMismatch l.get_type r.get_type)
    | _ => .error .StackUnderflow
  | some Op.Print =>
    match vm.stack with
    | [] => .error .StackUnderflow
    | value :: rest =>
      .ok { vm with stack := rest, output := vm.output ++ [value.debug M] }

/-- Embedding of `Vm::run_next`: execute the fetched instruction, then the
unconditional trailing `self.ip += 1`. -/
def Vm.run_next {F : Type} (M : FloatOps F) (vm : Vm F) : Except VmError (Vm F) :=
  match Vm.exec M vm with
  | .error e => .error e
  | .ok vm' => .ok { vm' with ip := vm'.ip + 1 }

/-- Outcome of a complete run: either the loop of `Vm::run_to_back` exits
normally with the final state, or some instruction aborts;  the aborted
outcome carries the state at which the failing instruction began (the last
fully committed state). -/
inductive Outcome (F : Type) where
  | halted (vm : Vm F) : Outcome F
  | aborted (e : VmError) (vm : Vm F) : Outcome F
deriving DecidableEq

/-- Big-step embedding of `Vm::run_to_back`: keep stepping while the
pointer is in range; a pointer at or past the end halts the run; an error
in `run_next` aborts it. -/
inductive RunsTo {F : Type} (M : FloatOps F) : Vm F → Outcome F → Prop where
  | halt (vm : Vm F) : ¬ vm.ip < vm.program.ops.length →
      RunsTo M vm (.halted vm)
  | step (vm vm' : Vm F) (o : Outcome F) : vm.ip < vm.program.ops.length →
      vm.run_next M = .ok vm' → RunsTo M vm' o → RunsTo M vm o
  | abort (vm : Vm F) (e : VmError) : vm.ip < vm.program.ops.length →
      vm.run_next M = .error e → RunsTo M vm (.aborted e vm)

/-- Fuelled executable form of `Vm::run_to_back` (the Rust loop needs no
fuel but may diverge; the fuel only limits how many iterations we are
willing to evaluate). -/
def Vm.run_to_back {F : Type} (M : FloatOps F) : Nat → Vm F → Option (Outcome F)
  | 0, _ => none
  | fuel + 1, vm =>
    if vm.ip < vm.program.ops.length then
      match vm.run_next M with
      | .ok vm' => Vm.run_to_back M fuel vm'
      | .error e => some (.aborted e vm)
    else some (.halted vm)

/-- Reachability by zero or more successful single steps. -/
def Steps {F : Type} (M : FloatOps F) : Vm F → Vm F → Prop :=
  Relation.ReflTransGen (fun a b => a.run_next M = .ok b)

/-- Concrete instance of the abstract number carrier used by witnesses:
integers with their arithmetic and decimal printing (on the integral
values appearing in witnesses, the Rust f64 Display form agrees with the
integer decimal form). -/
def intOps : FloatOps Int where
  add a b := a + b
  sub a b := a - b
  mul a b := a * b
  div a b := a / b
  rem a b := a % b
  zero := 0
  beq a b := a == b
  fmtDisplay n := toString n
  fmtDebug n := toString n ++ ".0"

/-- Specification-side result table for Add, written from the spec (§4.2
arithmetic semantics): Number+Number adds, a String on either side
concatenates using the display form of the other side, anything else is a
TypeMismatch carrying the two tags. -/
def addSpecResult {F : Type} (M : FloatOps F) (lhs rhs : Value F) :
    Except VmError (Value F) :=
  match lhs, rhs with
  | .number a, .number b => .ok (.number (M.add a b))
  | .string a, r => .ok (.string (a ++ r.to_string M))
  | l, .string b => .ok (.string (l.to_string M ++ b))
  | l, r => .error (.TypeMismatch l.get_type r.get_type)

/-- Specification-side result table for the Number-only binary ops (Sub,
Mul, Div, Mod): defined exactly on Number+Number, every other combination
is a TypeMismatch.  The swapTags flag selects the tag order of the error
(the Sub message cites rhs first, the others cite lhs first). -/
def numericOpSpec {F : Type} (f : F → F → F) (swapTags : Bool)
    (lhs rhs : Value F) : Except VmError (Value F) :=
  match lhs, rhs with
  | .number a, .number b => .ok (.number (f a b))
  | l, r =>
    .error (if swapTags then .TypeMismatch r.get_type l.get_type
            else .TypeMismatch l.get_type r.get_type)

/-- Lift a result value of a binary stack operation back into a full step
of the machine: push the result onto the remaining stack and advance the
pointer, or propagate the error. -/
def liftStep {F : Type} (vm : Vm F) (rest : List (Value F)) :
    Except VmError (Value F) → Except VmError (Vm F)
  | .ok v => .ok { vm with stack := v :: rest, ip := vm.ip + 1 }
  | .error e => .error e

/-- Convenience builder for concrete witness machines: given an initial
stack, a constant pool, an instruction list and a global table, start at
pointer 0 with no output. -/
def mkVm (stack : List (Value Int)) (constants : List (Value Int))
    (ops : List Op) (globals : List (String × Value Int)) : Vm Int :=
  { stack := stack, program := { constants := constants, ops := ops },
    globals := globals, ip := 0, output := [] }

/-- Program of examples/hello_world.rs: constants [2.0, 4.0], instructions
[LoadConstant 0, LoadConstant 1, Add, Print]. -/
def helloProgram : Program Int :=
  { constants := [.number 2, .number 4],
    ops := [.LoadConstant 0, .LoadConstant 1, .Add, .Print] }

/-- Initial VM of examples/hello_world.rs: empty stack and globals,
pointer 0. -/
def helloVm : Vm Int :=
  { stack := [], program := helloProgram, globals := [], ip := 0, output := [] }

/-- Witness machine: a single Jump 0 at pointer 0. -/
def jumpVm : Vm Int := mkVm [] [] [.Jump 0] []

/-- Witness machine: a single Jump 5, whose computed pointer 5 (landing
pointer 6 after the trailing advance) is far past the end of the one
instruction sequence. -/
def jumpPastEndVm : Vm Int := mkVm [] [] [.Jump 5] []

/-- Witness machine: a single Jump (-1) at pointer 0, whose computed
pointer underflows. -/
def jumpUnderflowVm : Vm Int := mkVm [] [] [.Jump (-1)] []

/-- Witness machine: an Add on an empty stack. -/
def underflowVm : Vm Int := mkVm [] [] [.Add] []

/-- Witness machine: a TestNot with the truthy Number 1 on the stack. -/
def testNotVm : Vm Int := mkVm [.number 1] [] [.TestNot] []

/-- Witness machine: Add with String "x" pushed first and Number 1 on
top. -/
def addStrNumVm : Vm Int := mkVm [.number 1, .string "x"] [] [.Add] []

/-- Witness machine: Add with Number 1 pushed first and String "x" on
top. -/
def addNumStrVm : Vm Int := mkVm [.string "x", .number 1] [] [.Add] []

/-- Witness machine: Add with Nil below Bool true. -/
def addNilBoolVm : Vm Int := mkVm [.bool true, .nil] [] [.Add] []

/-- Witness machine: Add with Number 2 below Number 4. -/
def addNumVm : Vm Int := mkVm [.number 4, .number 2] [] [.Add] []

/-- Witness machine: Sub with Number 3 below Number 1. -/
def subVm : Vm Int := mkVm [.number 1, .number 3] [] [.Sub] []

/-- Witness machine: Mul with Number 2 below Number 4. -/
def mulVm : Vm Int := mkVm [.number 4, .number 2] [] [.Mul] []

/-- Witness machine: Mod with Number 7 below Number 3. -/
def modVm : Vm Int := mkVm [.number 3, .number 7] [] [.Mod] []

/-- Witness machine: Div with Number 3 below Number 0 (division by
zero). -/
def divZeroVm : Vm Int := mkVm [.number 0, .number 3] [] [.Div] []

/-- Witness machine: Sub applied to two Strings. -/
def subStrVm : Vm Int := mkVm [.string "a", .string "b"] [] [.Sub] []

/-- Witness machine: SetGlobal 0 with constant pool name "n" and Number 7
on the stack. -/
def setGlobalVm : Vm Int := mkVm [.number 7] [.string "n"] [.SetGlobal 0] []

/-- Witness machine: GetGlobal 0 with constant pool name "n" and a global
table binding "n" to Number 7. -/
def getGlobalVm : Vm Int := mkVm [] [.string "n"] [.GetGlobal 0] [("n", .number 7)]

/-- Witness machine: GetGlobal 0 with constant pool name "g" and an empty
global table. -/
def unboundVm : Vm Int := mkVm [] [.string "g"] [.GetGlobal 0] []

section Helpers

variable {F : Type}

/-- Unfolding of the success case of run_next: a successful step is a
successful exec followed by the trailing pointer increment. -/
theorem run_next_eq_ok (M : FloatOps F) (vm vm' : Vm F) :
    vm.run_next M = .ok vm' ↔
      ∃ w, Vm.exec M vm = .ok w ∧ vm' = { w with ip := w.ip + 1 } := by
  unfold Vm.run_next
  cases h : Vm.exec M vm with
  | error e => simp
  | ok w =>
    constructor
    · intro hok
      exact ⟨w, rfl, by injection hok with h; exact h.symm⟩
    · rintro ⟨w', hw', rfl⟩
      injection hw' with hw'
      rw [hw']

/-- Unfolding of the failure case of run_next: the trailing increment
never fires on an error, so run_next fails exactly when exec does. -/
theorem run_next_eq_error (M : FloatOps F) (vm : Vm F) (e : VmError) :
    vm.run_next M = .error e ↔ Vm.exec M vm = .error e := by
  unfold Vm.run_next
  cases h : Vm.exec M vm <;> simp

/-- Success characterization of the checked pointer addition. -/
theorem checked_add_signed_eq_some (n t : Nat) (off : Int) :
    checked_add_signed n off = some t ↔
      ((t : Int) = (n : Int) + off ∧ 0 ≤ (n : Int) + off ∧
        (n : Int) + off < (2 : Int) ^ 64) := by
  unfold checked_add_signed
  split
  · next hc =>
    simp only [Option.some.injEq]
    constructor
    · rintro rfl
      exact ⟨Int.toNat_of_nonneg hc.1, hc.1, hc.2⟩
    · rintro ⟨ht, -, -⟩
      omega
  · next hc =>
    simp only [reduceCtorEq, false_iff]
    rintro ⟨ht, h0, hlt⟩
    exact hc ⟨h0, hlt⟩

/-- Failure characterization of the checked pointer addition. -/
theorem checked_add_signed_eq_none (n : Nat) (off : Int) :
    checked_add_signed n off = none ↔
      ((n : Int) + off < 0 ∨ (2 : Int) ^ 64 ≤ (n : Int) + off) := by
  unfold checked_add_signed
  split
  · next hc =>
    refine iff_of_false (by simp) ?_
    omega
  · next hc =>
    refine iff_of_true rfl ?_
    omega

/-- Lookup is unaffected by dropping pairs whose key differs from the one
looked up. -/
theorem globalsGet_filter_ne (g : List (String × Value F)) (n n' : String)
    (h : n' ≠ n) :
    globalsGet (g.filter (fun p => p.1 != n')) n = globalsGet g n := by
  induction g with
  | nil => rfl
  | cons p g ih =>
    rcases p with ⟨k, v⟩
    by_cases hk : k = n'
    · subst hk
      have h2 : (k == n) = false := by simp [h]
      simp [List.filter_cons, globalsGet, h2, ih]
    · have h1 : (k != n') = true := by simp [hk]
      by_cases h2 : k = n
      · subst h2
        simp [List.filter_cons, h1, globalsGet]
      · have h3 : (k == n) = false := by simp [h2]
        simp [List.filter_cons, h1, globalsGet, h3, ih]

/-- Reading back the key just written returns the written value. -/
theorem globalsGet_insert_same (g : List (String × Value F)) (n : String)
    (v : Value F) : globalsGet (globalsInsert g n v) n = some v := by
  simp [globalsGet, globalsInsert]

/-- Writing a different key does not disturb a lookup. -/
theorem globalsGet_insert_ne (g : List (String × Value F)) (n n' : String)
    (w : Value F) (h : n' ≠ n) :
    globalsGet (globalsInsert g n' w) n = globalsGet g n := by
  have hbeq : (n' == n) = false := by
    rw [beq_eq_false_iff_ne]
    exact h
  simp [globalsGet, globalsInsert, hbeq, globalsGet_filter_ne g n n' h]

/-- Unfolding of exec at a Jump instruction. -/
theorem exec_jump (M : FloatOps F) (vm : Vm F) (offset : Int)
    (hop : vm.program.ops[vm.ip]? = some (Op.Jump offset)) :
    Vm.exec M vm = (match checked_add_signed vm.ip offset with
      | none => .error .InvalidJumpTarget
      | some t => .ok { vm with ip := t }) := by
  unfold Vm.exec
  rw [hop]

/-- Exec of a successful step never touches the program: every ok arm of
the match copies the program field unchanged. -/
theorem exec_program_eq (M : FloatOps F) (vm w : Vm F)
    (h : Vm.exec M vm = .ok w) : w.program = vm.program := by
  unfold Vm.exec at h
  repeat' split at h
  all_goals
    first
    | exact Except.noConfusion h
    | (injection h with h; subst h; rfl)

/-- A successful run_next never touches the program. -/
theorem run_next_program_eq (M : FloatOps F) (vm vm' : Vm F)
    (h : vm.run_next M = .ok vm') : vm'.program = vm.program := by
  rcases (run_next_eq_ok M vm vm').1 h with ⟨w, hw, rfl⟩
  exact exec_program_eq M vm w hw

/-- Inversion of an aborted run: the state carried by the aborted outcome
is reached from the initial state by fully completed steps, and the
failing instruction itself reports the error. -/
theorem runsTo_aborted_inv (M : FloatOps F) (vm : Vm F) (o : Outcome F)
    (h : RunsTo M vm o) : ∀ e verr, o = .aborted e verr →
      Steps M vm verr ∧ verr.run_next M = .error e := by
  induction h with
  | halt vm hlt =>
    intro e verr heq
    cases heq
  | step vm vm' o hlt hok hrun ih =>
    intro e verr heq
    obtain ⟨hs, he⟩ := ih e verr heq
    exact ⟨Relation.ReflTransGen.head hok hs, he⟩
  | abort vm e hlt herr =>
    intro e' verr heq
    cases heq
    exact ⟨Relation.ReflTransGen.refl, herr⟩

/-- Inversion of a run for the program component: both normal and aborted
outcomes carry the program of the initial state. -/
theorem runsTo_program_inv (M : FloatOps F) (vm : Vm F) (o : Outcome F)
    (h : RunsTo M vm o) :
    (∀ vmH, o = .halted vmH → vmH.program = vm.program) ∧
    (∀ e vmA, o = .aborted e vmA → vmA.program = vm.program) := by
  induction h with
  | halt vm hlt =>
    refine ⟨fun vmH heq => ?_, fun e vmA heq => ?_⟩
    · cases heq; rfl
    · cases heq
  | step vm vm' o hlt hok hrun ih =>
    have hp : vm'.program = vm.program := run_next_program_eq M vm vm' hok
    refine ⟨fun vmH heq => ?_, fun e vmA heq => ?_⟩
    · exact (ih.1 vmH heq).trans hp
    · exact (ih.2 e vmA heq).trans hp
  | abort vm e hlt herr =>
    refine ⟨fun vmH heq => ?_, fun e' vmA heq => ?_⟩
    · cases heq
    · cases heq; rfl

/-- Soundness of the fuelled loop with respect to the big-step relation:
whatever outcome the fuelled run reports is an outcome of the run. -/
theorem run_to_back_sound (M : FloatOps F) (fuel : Nat) (vm : Vm F)
    (o : Outcome F) (h : Vm.run_to_back M fuel vm = some o) : RunsTo M vm o := by
  induction fuel generalizing vm with
  | zero => exact Option.noConfusion h
  | succ fuel ih =>
    unfold Vm.run_to_back at h
    split at h
    · next hlt =>
      cases hx : vm.run_next M with
      | ok vm' =>
        rw [hx] at h
        exact RunsTo.step vm vm' o hlt hx (ih vm' h)
      | error e =>
        rw [hx] at h
        injection h with h
        rw [← h]
        exact RunsTo.abort vm e hlt hx
    · next hlt =>
      injection h with h
      rw [← h]
      exact RunsTo.halt vm hlt

/-- End-to-end evaluation of the hello_world program on the integer
model: the run halts with pointer 4 and prints the debug form of
Number 6. -/
theorem hello_world_run : Vm.run_to_back intOps 10 helloVm =
    some (.halted { helloVm with ip := 4, output := ["Number(6.0)"] }) := by
  decide

end Helpers

section Claims

variable {F : Type}

/-- C1: executing a Jump(offset) instruction at pointer p that completes
without error leaves the instruction pointer at p + offset + 1: the
target old_ip + offset is stored first, and the generic trailing advance
then increments it.  Instantiating offset with 0 continues at p + 1, and
with -1 the machine re-executes instruction p. -/
theorem C1_jump_lands_at_offset_plus_one (M : FloatOps F)
    (vm vm' : Vm F) (offset : Int)
    (hop : vm.program.ops[vm.ip]? = some (Op.Jump offset))
    (hok : vm.run_next M = .ok vm') :
    (vm'.ip : Int) = (vm.ip : Int) + offset + 1 := by
  rcases (run_next_eq_ok M vm vm').1 hok with ⟨w, hw, rfl⟩
  rw [exec_jump M vm offset hop] at hw
  cases hc : checked_add_signed vm.ip offset with
  | none =>
    rw [hc] at hw
    exact Except.noConfusion hw
  | some t =>
    rw [hc] at hw
    injection hw with hw
    obtain ⟨ht, h0, hlt⟩ := (checked_add_signed_eq_some vm.ip t offset).1 hc
    rw [← hw]
    show ((t + 1 : Nat) : Int) = (vm.ip : Int) + offset + 1
    push_cast
    omega

/-- Witness for C1: on jumpVm, the Jump 0 at pointer 0 lands the machine
at pointer 0 + 0 + 1 = 1. -/
theorem C1_witness : ((1 : Nat) : Int) = ((0 : Nat) : Int) + 0 + 1 :=
  C1_jump_lands_at_offset_plus_one intOps jumpVm { jumpVm with ip := 1 } 0 rfl rfl

/-- C2 counterexample: on jumpPastEndVm the single instruction Jump 5
computes pointer 5, far out of range of the one-instruction sequence, yet
the step succeeds (no fatal error) and the run then terminates normally
with pointer 6. -/
theorem C2_counterexample :
    jumpPastEndVm.program.ops.length = 1 ∧
    jumpPastEndVm.run_next intOps = .ok { jumpPastEndVm with ip := 6 } ∧
    RunsTo intOps jumpPastEndVm (.halted { jumpPastEndVm with ip := 6 }) := by
  refine ⟨rfl, rfl, ?_⟩
  exact RunsTo.step jumpPastEndVm { jumpPastEndVm with ip := 6 } _ (by decide)
    rfl (RunsTo.halt _ (by decide))

/-- C2 (amended): a Jump is a fatal error exactly when its computed
pointer cannot be represented as an unsigned 64-bit pointer (negative, or
at least 2 to the 64); the only error a Jump can raise is
InvalidJumpTarget; and a Jump whose computed pointer is representable
succeeds even when it lies beyond the end of the instruction sequence, in
which case the run simply terminates normally at the next loop check. -/
theorem C2_jump_error_iff_unrepresentable (M : FloatOps F)
    (vmJ vmE vmT : Vm F) (offJ offE offT : Int) (e : VmError) (t : Nat)
    (hJ : vmJ.program.ops[vmJ.ip]? = some (Op.Jump offJ))
    (hE : vmE.program.ops[vmE.ip]? = some (Op.Jump offE))
    (hEe : vmE.run_next M = .error e)
    (hT : vmT.program.ops[vmT.ip]? = some (Op.Jump offT))
    (hTt : (t : Int) = (vmT.ip : Int) + offT)
    (hT0 : 0 ≤ (vmT.ip : Int) + offT)
    (hTlt : (vmT.ip : Int) + offT < (2 : Int) ^ 64) :
    (vmJ.run_next M = .error .InvalidJumpTarget ↔
      ((vmJ.ip : Int) + offJ < 0 ∨ (2 : Int) ^ 64 ≤ (vmJ.ip : Int) + offJ)) ∧
    e = .InvalidJumpTarget ∧
    vmT.run_next M = .ok { vmT with ip := t + 1 } := by
  refine ⟨?_, ?_, ?_⟩
  · rw [run_next_eq_error, exec_jump M vmJ offJ hJ]
    cases hc : checked_add_signed vmJ.ip offJ with
    | none =>
      exact iff_of_true rfl ((checked_add_signed_eq_none vmJ.ip offJ).1 hc)
    | some t' =>
      refine iff_of_false (by simp) ?_
      intro hd
      rw [(checked_add_signed_eq_none vmJ.ip offJ).2 hd] at hc
      exact Option.noConfusion hc
  · rw [run_next_eq_error, exec_jump M vmE offE hE] at hEe
    cases hc : checked_add_signed vmE.ip offE with
    | none =>
      rw [hc] at hEe
      injection hEe with h
      exact h.symm
    | some t' =>
      rw [hc] at hEe
      exact Except.noConfusion hEe
  · have hc : checked_add_signed vmT.ip offT = some t :=
      (checked_add_signed_eq_some vmT.ip t offT).2 ⟨hTt, hT0, hTlt⟩
    refine (run_next_eq_ok M vmT _).2 ⟨{ vmT with ip := t }, ?_, rfl⟩
    rw [exec_jump M vmT offT hT, hc]

/-- Witness for the amended C2: Jump (-1) at pointer 0 underflows and is
the fatal InvalidJumpTarget, while Jump 5 at pointer 0 of a length-one
program succeeds with pointer 6. -/
theorem C2_witness :
    (jumpUnderflowVm.run_next intOps = .error .InvalidJumpTarget ↔
      ((jumpUnderflowVm.ip : Int) + (-1) < 0 ∨
        (2 : Int) ^ 64 ≤ (jumpUnderflowVm.ip : Int) + (-1))) ∧
    VmError.InvalidJumpTarget = .InvalidJumpTarget ∧
    jumpPastEndVm.run_next intOps = .ok { jumpPastEndVm with ip := 6 } :=
  C2_jump_error_iff_unrepresentable intOps jumpUnderflowVm jumpUnderflowVm
    jumpPastEndVm (-1) (-1) 5 .InvalidJumpTarget 5 rfl rfl rfl rfl
    (by decide) (by decide) (by decide)

/-- C3: an aborting run is atomic at instruction granularity: when a run
from vm aborts with error e, the state verr surfaced with the error is
reached from vm by fully completed instructions only, and the failing
instruction at verr reports the error without committing any stack,
global, or pointer effect (its step is the error, not a success). -/
theorem C3_abort_is_atomic (M : FloatOps F) (vm verr : Vm F) (e : VmError)
    (h : RunsTo M vm (.aborted e verr)) :
    Steps M vm verr ∧ verr.run_next M = .error e :=
  runsTo_aborted_inv M vm _ h e verr rfl

/-- Witness for C3: the run of underflowVm (Add on an empty stack) aborts
at its initial state with StackUnderflow, committing nothing. -/
theorem C3_witness :
    Steps intOps underflowVm underflowVm ∧
    underflowVm.run_next intOps = .error .StackUnderflow :=
  C3_abort_is_atomic intOps underflowVm underflowVm .StackUnderflow
    (RunsTo.abort underflowVm .StackUnderflow (by decide) rfl)

/-- C10: the engine is deterministic: two runs to completion from the same
state produce the same outcome — the same final stack, global table,
pointer and printed output on normal termination, and the same error and
final state on an abort. -/
theorem C10_deterministic (M : FloatOps F) (vm : Vm F)
    (o₁ o₂ : Outcome F) (h₁ : RunsTo M vm o₁) (h₂ : RunsTo M vm o₂) :
    o₁ = o₂ := by
  induction h₁ generalizing o₂ with
  | halt vm hlt =>
    cases h₂ with
    | halt _ _ => rfl
    | step _ vm' o hlt2 hok hrun => exact absurd hlt2 hlt
    | abort _ e hlt2 herr => exact absurd hlt2 hlt
  | step vm vm' o hlt hok hrun ih =>
    cases h₂ with
    | halt _ hlt2 => exact absurd hlt hlt2
    | step _ vm'' o' hlt2 hok2 hrun2 =>
      rw [hok] at hok2
      injection hok2 with hok2
      subst hok2
      exact ih o₂ hrun2
    | abort _ e hlt2 herr =>
      rw [hok] at herr
      exact Except.noConfusion herr
  | abort vm e hlt herr =>
    cases h₂ with
    | halt _ hlt2 => exact absurd hlt hlt2
    | step _ vm'' o' hlt2 hok2 hrun2 =>
      rw [herr] at hok2
      exact Except.noConfusion hok2
    | abort _ e' hlt2 herr2 =>
      rw [herr] at herr2
      injection herr2 with h
      rw [h]

/-- Witness for C10: two evaluations of the hello_world run agree on the
outcome. -/
theorem C10_witness :
    Outcome.halted { helloVm with ip := 4, output := ["Number(6.0)"] } =
    Outcome.halted { helloVm with ip := 4, output := ["Number(6.0)"] } :=
  C10_deterministic intOps helloVm
    (.halted { helloVm with ip := 4, output := ["Number(6.0)"] })
    (.halted { helloVm with ip := 4, output := ["Number(6.0)"] })
    (run_to_back_sound intOps 10 helloVm _ (by decide))
    (run_to_back_sound intOps 10 helloVm _ (by decide))

/-- C4: a TestNot with value v on top of the stack pops exactly v and
advances the pointer by 2 (skipping exactly one instruction) when v is
truthy, otherwise by 1; truthiness is false for Nil, b for Bool b, the
0.0-inequality test for Number n, and non-emptiness for String s. -/
theorem C4_testnot_skip (M : FloatOps F) (vm : Vm F)
    (v : Value F) (rest : List (Value F)) (b : Bool) (n : F) (s : String)
    (hop : vm.program.ops[vm.ip]? = some Op.TestNot)
    (hs : vm.stack = v :: rest) :
    vm.run_next M =
      .ok { vm with stack := rest,
                    ip := vm.ip + (if v.is_truthy M then 2 else 1) } ∧
    (Value.nil : Value F).is_truthy M = false ∧
    (Value.bool b : Value F).is_truthy M = b ∧
    (Value.number n : Value F).is_truthy M = !(M.beq n M.zero) ∧
    (Value.string s : Value F).is_truthy M = !s.isEmpty := by
  refine ⟨?_, rfl, rfl, rfl, rfl⟩
  unfold Vm.run_next Vm.exec
  rw [hop, hs]
  by_cases ht : v.is_truthy M <;> simp [ht]

/-- Witness for C4: TestNot on the truthy Number 1 pops it and skips one
instruction (pointer 0 to 2), and the four truthiness rules evaluate as
stated. -/
theorem C4_witness :
    testNotVm.run_next intOps = .ok { testNotVm with stack := [], ip := 2 } ∧
    (Value.nil : Value Int).is_truthy intOps = false ∧
    (Value.bool true : Value Int).is_truthy intOps = true ∧
    (Value.number 1 : Value Int).is_truthy intOps = !(intOps.beq 1 intOps.zero) ∧
    (Value.string "" : Value Int).is_truthy intOps = !(String.isEmpty "") :=
  C4_testnot_skip intOps testNotVm (.number 1) [] true 1 "" rfl rfl

/-- C5: the step of Add on stack rhs :: lhs :: rest agrees with the
specification table addSpecResult: Number+Number is the numeric sum, a
String operand on either side concatenates the display forms in
left-then-right order, and every other combination is the fatal
TypeMismatch carrying the two type tags. -/
theorem C5_add_follows_spec_table (M : FloatOps F) (vm : Vm F)
    (lhs rhs : Value F) (rest : List (Value F))
    (hop : vm.program.ops[vm.ip]? = some Op.Add)
    (hs : vm.stack = rhs :: lhs :: rest) :
    vm.run_next M = liftStep vm rest (addSpecResult M lhs rhs) := by
  unfold Vm.run_next Vm.exec
  rw [hop, hs]
  cases lhs <;> cases rhs <;> simp [addSpecResult, liftStep]

/-- Witness for C5: 2 + 4 gives Number 6; pushing String "x" then
Number 1 gives String "x1"; pushing Number 1 then String "x" gives
String "1x"; Nil plus Bool is the TypeMismatch citing nil and bool. -/
theorem C5_witness :
    addNumVm.run_next intOps = .ok { addNumVm with stack := [.number 6], ip := 1 } ∧
    addStrNumVm.run_next intOps =
      .ok { addStrNumVm with stack := [.string "x1"], ip := 1 } ∧
    addNumStrVm.run_next intOps =
      .ok { addNumStrVm with stack := [.string "1x"], ip := 1 } ∧
    addNilBoolVm.run_next intOps = .error (.TypeMismatch "nil" "bool") :=
  ⟨C5_add_follows_spec_table intOps addNumVm (.number 2) (.number 4) [] rfl rfl,
   C5_add_follows_spec_table intOps addStrNumVm (.string "x") (.number 1) [] rfl rfl,
   C5_add_follows_spec_table intOps addNumStrVm (.number 1) (.string "x") [] rfl rfl,
   C5_add_follows_spec_table intOps addNilBoolVm .nil (.bool true) [] rfl rfl⟩

/-- C6: Sub, Mul, Div and Mod step according to the Number-only
specification table: on two Numbers they push the respective result of
the left and right operands (right popped first) — including division or
remainder by zero, which succeeds with whatever the number model returns —
and on every other combination they raise the fatal TypeMismatch (the Sub
diagnostic cites the rhs tag first, the others the lhs tag first). -/
theorem C6_numeric_ops_follow_spec_table (M : FloatOps F)
    (vmS vmM vmD vmR : Vm F) (lS rS lM rM lD rD lR rR : Value F)
    (restS restM restD restR : List (Value F))
    (hopS : vmS.program.ops[vmS.ip]? = some Op.Sub)
    (hsS : vmS.stack = rS :: lS :: restS)
    (hopM : vmM.program.ops[vmM.ip]? = some Op.Mul)
    (hsM : vmM.stack = rM :: lM :: restM)
    (hopD : vmD.program.ops[vmD.ip]? = some Op.Div)
    (hsD : vmD.stack = rD :: lD :: restD)
    (hopR : vmR.program.ops[vmR.ip]? = some Op.Mod)
    (hsR : vmR.stack = rR :: lR :: restR) :
    vmS.run_next M = liftStep vmS restS (numericOpSpec M.sub true lS rS) ∧
    vmM.run_next M = liftStep vmM restM (numericOpSpec M.mul false lM rM) ∧
    vmD.run_next M = liftStep vmD restD (numericOpSpec M.div false lD rD) ∧
    vmR.run_next M = liftStep vmR restR (numericOpSpec M.rem false lR rR) := by
  refine ⟨?_, ?_, ?_, ?_⟩
  · unfold Vm.run_next Vm.exec
    rw [hopS, hsS]
    cases lS <;> cases rS <;> simp [numericOpSpec, liftStep]
  · unfold Vm.run_next Vm.exec
    rw [hopM, hsM]
    cases lM <;> cases rM <;> simp [numericOpSpec, liftStep]
  · unfold Vm.run_next Vm.exec
    rw [hopD, hsD]
    cases lD <;> cases rD <;> simp [numericOpSpec, liftStep]
  · unfold Vm.run_next Vm.exec
    rw [hopR, hsR]
    cases lR <;> cases rR <;> simp [numericOpSpec, liftStep]

/-- Witness for C6: 3 - 1 = 2, 2 * 4 = 8, division of 3 by zero succeeds
with the model quotient (0 on the integer model), and 7 mod 3 = 1. -/
theorem C6_witness :
    subVm.run_next intOps = .ok { subVm with stack := [.number 2], ip := 1 } ∧
    mulVm.run_next intOps = .ok { mulVm with stack := [.number 8], ip := 1 } ∧
    divZeroVm.run_next intOps =
      .ok { divZeroVm with stack := [.number 0], ip := 1 } ∧
    modVm.run_next intOps = .ok { modVm with stack := [.number 1], ip := 1 } :=
  C6_numeric_ops_follow_spec_table intOps subVm mulVm divZeroVm modVm
    (.number 3) (.number 1) (.number 2) (.number 4)
    (.number 3) (.number 0) (.number 7) (.number 3)
    [] [] [] [] rfl rfl rfl rfl rfl rfl rfl rfl

/-- C7: the error conditions are fatal, never silently ignored: an Add
with fewer than two stack values is StackUnderflow (not a no-op), a
GetGlobal whose name has no current binding is UnboundGlobal, and a Sub
on two Strings is the TypeMismatch citing the tags string and string. -/
theorem C7_error_taxonomy (M : FloatOps F) (vmU vmG vmT : Vm F)
    (index : Nat) (c : Value F) (s₁ s₂ : String) (rest : List (Value F))
    (hU : vmU.program.ops[vmU.ip]? = some Op.Add)
    (hUs : vmU.stack.length < 2)
    (hG : vmG.program.ops[vmG.ip]? = some (Op.GetGlobal index))
    (hGc : vmG.program.constants[index]? = some c)
    (hGl : globalsGet vmG.globals (c.to_string M) = none)
    (hT : vmT.program.ops[vmT.ip]? = some Op.Sub)
    (hTs : vmT.stack = .string s₁ :: .string s₂ :: rest) :
    vmU.run_next M = .error .StackUnderflow ∧
    vmG.run_next M = .error .UnboundGlobal ∧
    vmT.run_next M = .error (.TypeMismatch "string" "string") := by
  refine ⟨?_, ?_, ?_⟩
  · unfold Vm.run_next Vm.exec
    rw [hU]
    rcases hstk : vmU.stack with _ | ⟨a, _ | ⟨b, tail⟩⟩
    · rfl
    · rfl
    · rw [hstk] at hUs
      simp only [List.length_cons] at hUs
      omega
  · unfold Vm.run_next Vm.exec
    simp only [hG, hGc, hGl]
  · unfold Vm.run_next Vm.exec
    rw [hT, hTs]
    rfl

/-- Witness for C7: Add on the empty stack underflows, GetGlobal of the
never-written name "g" is unbound, and Sub on Strings "b" and "a" cites
string twice. -/
theorem C7_witness :
    underflowVm.run_next intOps = .error .StackUnderflow ∧
    unboundVm.run_next intOps = .error .UnboundGlobal ∧
    subStrVm.run_next intOps = .error (.TypeMismatch "string" "string") :=
  C7_error_taxonomy intOps underflowVm unboundVm subStrVm 0 (.string "g")
    "a" "b" [] rfl (by decide) rfl rfl rfl rfl rfl

/-- C8: SetGlobal pops the value and binds it under the display string of
the indexed constant, GetGlobal pushes the current binding of its name, a
read of a just-written name returns the written value (last write wins),
a write to a different name does not disturb the binding, and a read of
an unbound name is the fatal UnboundGlobal. -/
theorem C8_global_roundtrip (M : FloatOps F) (vmS vmG vmU : Vm F)
    (iS iG iU : Nat) (cS cG cU v u : Value F) (rest : List (Value F))
    (g : List (String × Value F)) (n n' : String) (w : Value F)
    (hS : vmS.program.ops[vmS.ip]? = some (Op.SetGlobal iS))
    (hSs : vmS.stack = v :: rest)
    (hSc : vmS.program.constants[iS]? = some cS)
    (hG : vmG.program.ops[vmG.ip]? = some (Op.GetGlobal iG))
    (hGc : vmG.program.constants[iG]? = some cG)
    (hGl : globalsGet vmG.globals (cG.to_string M) = some u)
    (hU : vmU.program.ops[vmU.ip]? = some (Op.GetGlobal iU))
    (hUc : vmU.program.constants[iU]? = some cU)
    (hUl : globalsGet vmU.globals (cU.to_string M) = none)
    (hne : n' ≠ n) :
    vmS.run_next M =
      .ok { vmS with stack := rest,
                     globals := globalsInsert vmS.globals (cS.to_string M) v,
                     ip := vmS.ip + 1 } ∧
    vmG.run_next M = .ok { vmG with stack := u :: vmG.stack, ip := vmG.ip + 1 } ∧
    globalsGet (globalsInsert g n v) n = some v ∧
    globalsGet (globalsInsert g n' w) n = globalsGet g n ∧
    vmU.run_next M = .error .UnboundGlobal := by
  refine ⟨?_, ?_, globalsGet_insert_same g n v,
    globalsGet_insert_ne g n n' w hne, ?_⟩
  · unfold Vm.run_next Vm.exec
    simp only [hS, hSs, hSc]
  · unfold Vm.run_next Vm.exec
    simp only [hG, hGc, hGl]
  · unfold Vm.run_next Vm.exec
    simp only [hU, hUc, hUl]

/-- Witness for C8: SetGlobal binds Number 7 under "n", GetGlobal of "n"
pushes Number 7 back, the table round-trips "n", a write to "m" leaves
"n" alone, and GetGlobal of the unbound "g" errors. -/
theorem C8_witness :
    setGlobalVm.run_next intOps =
      .ok { setGlobalVm with stack := [],
                             globals := [("n", .number 7)],
                             ip := 1 } ∧
    getGlobalVm.run_next intOps =
      .ok { getGlobalVm with stack := [.number 7], ip := 1 } ∧
    globalsGet (globalsInsert [] "n" (.number 7 : Value Int)) "n" =
      some (.number 7) ∧
    globalsGet (globalsInsert [] "m" (.number 8 : Value Int)) "n" =
      globalsGet [] "n" ∧
    unboundVm.run_next intOps = .error .UnboundGlobal :=
  C8_global_roundtrip intOps setGlobalVm getGlobalVm unboundVm 0 0 0
    (.string "n") (.string "n") (.string "g") (.number 7) (.number 7) []
    [] "n" "m" (.number 8) rfl rfl rfl rfl rfl rfl rfl rfl rfl (by decide)

/-- C9: the program is read-only for the duration of a run: the constant
pool and instruction sequence are identical after a successful step,
after a normal run to completion, and at an abort; a step only ever
rebuilds the stack, the global table, the pointer (and the print
output). -/
theorem C9_program_readonly (M : FloatOps F) (vm₁ vm₁' vm₂ vmH vm₃ vmA : Vm F)
    (e : VmError)
    (h₁ : vm₁.run_next M = .ok vm₁')
    (h₂ : RunsTo M vm₂ (.halted vmH))
    (h₃ : RunsTo M vm₃ (.aborted e vmA)) :
    vm₁'.program = vm₁.program ∧ vmH.program = vm₂.program ∧
    vmA.program = vm₃.program :=
  ⟨run_next_program_eq M vm₁ vm₁' h₁,
   (runsTo_program_inv M vm₂ _ h₂).1 vmH rfl,
   (runsTo_program_inv M vm₃ _ h₃).2 e vmA rfl⟩

/-- Witness for C9: one hello_world step, the complete hello_world run,
and the aborting underflow run all preserve their programs. -/
theorem C9_witness :
    ({ helloVm with stack := [.number 2], ip := 1 } : Vm Int).program =
      helloVm.program ∧
    ({ helloVm with ip := 4, output := ["Number(6.0)"] } : Vm Int).program =
      helloVm.program ∧
    underflowVm.program = underflowVm.program :=
  C9_program_readonly intOps helloVm
    { helloVm with stack := [.number 2], ip := 1 }
    helloVm { helloVm with ip := 4, output := ["Number(6.0)"] }
    underflowVm underflowVm .StackUnderflow rfl
    (run_to_back_sound intOps 10 helloVm _ (by decide))
    (RunsTo.abort underflowVm .StackUnderflow (by decide) rfl)

end Claims

end Banana
